import Mathlib

/-!
Verification of the quadlet_app deployment core.

Shallow embedding of `src/plugins/modules/quadlet_app.py`: the structural
validator, the three preprocessing rules, the checksum-based idempotency
engine, and the systemd orchestration state machine, together with theorems
settling the specification claims about them.

Text is modelled as `List Char` (one Python `str` code point per entry);
Python string primitives (`lstrip`, `strip`, `split`, `partition`,
`startswith`, `endswith`, `splitlines`, `lower`) are embedded as executable
functions on `List Char`.  Machine-level caveats are noted on each
definition.
-/

namespace Quadlet

/-- Characters of a Python `str`, one entry per code point. -/
abbrev Chars := List Char

/-- Convert a `String` to its character list. -/
def strL (s : String) : Chars := s.data

/-- Character list back to `String`. -/
def strOf (cs : Chars) : String := String.mk cs

/-- Python whitespace as recognised by `str.strip()` / `str.lstrip()`,
restricted to the ASCII range (code points 9-13, 28-31 and 32).  Python
additionally strips some non-ASCII Unicode whitespace; theorems that depend
on stripping therefore carry an ASCII hypothesis where they quantify over
arbitrary text. -/
def pySpace (c : Char) : Bool :=
  (9 ≤ c.toNat ∧ c.toNat ≤ 13) ∨ (28 ≤ c.toNat ∧ c.toNat ≤ 32)

/-- Python `str.lstrip()`. -/
def lstripC (s : Chars) : Chars := s.dropWhile pySpace

/-- Python `str.strip()`. -/
def stripC (s : Chars) : Chars :=
  ((s.dropWhile pySpace).reverse.dropWhile pySpace).reverse

/-- Python `a.startswith(b)`. -/
def startsC (pre s : Chars) : Bool := pre.isPrefixOf s

/-- Python `a.endswith(b)`. -/
def endsC (suf s : Chars) : Bool := suf.isSuffixOf s

/-- Python `a.endswith((s1, ..., sn))`. -/
def endsAnyC (sufs : List Chars) (s : Chars) : Bool := sufs.any (endsC · s)

/-- Python `s.split(sep)` for a one-character separator (all pieces). -/
def splitOnC (sep : Char) : Chars → List Chars
  | [] => [[]]
  | c :: rest =>
    if c = sep then [] :: splitOnC sep rest
    else
      match splitOnC sep rest with
      | [] => [[c]]
      | h :: t => (c :: h) :: t

/-- Python `sep.join(pieces)` for a one-character separator. -/
def joinC (sep : Char) : List Chars → Chars
  | [] => []
  | [p] => p
  | p :: rest => p ++ sep :: joinC sep rest

/-- Index of the last `'.'` counted from the end of the name (`none` when
the name has no dot).  Helper for `pathSuffix` / `pathStem`. -/
def lastDotFromEnd (s : Chars) : Option Nat := s.reverse.findIdx? (· = '.')

/-- Python `pathlib.PurePath(name).suffix` for a plain file name: the part
from the last dot, unless that dot is the first or the last character. -/
def pathSuffix (s : Chars) : Chars :=
  match lastDotFromEnd s with
  | none => []
  | some k => if 1 ≤ k ∧ k + 1 < s.length then s.drop (s.length - 1 - k) else []

/-- Python `pathlib.PurePath(name).stem` for a plain file name. -/
def pathStem (s : Chars) : Chars :=
  match lastDotFromEnd s with
  | none => s
  | some k => if 1 ≤ k ∧ k + 1 < s.length then s.take (s.length - 1 - k) else s

/-- Module constant `QUADLET_APP_BASE_DIR = "/srv"`. -/
def QUADLET_APP_BASE_DIR : Chars := strL "/srv"

/-- Module constant `QUADLET_SYSTEMD_DIR = "/etc/containers/systemd"`. -/
def QUADLET_SYSTEMD_DIR : Chars := strL "/etc/containers/systemd"

/-! ## Rule 2 — `QuadletPreprocessor._apply_rule2_replace_paths` -/

/-- Rule 2 (path redirection), embedded from
`QuadletPreprocessor._apply_rule2_replace_paths`.  `app` is
`self.app_name`, `containerName` is the current file's stem, `line` is one
line of the file. -/
def ruleTwo (app containerName : Chars) (line : Chars) : Chars :=
  let s := lstripC line
  if ¬ startsC (strL "Volume=") s then line
  else
    let ws := line.take (line.length - s.length)
    let value := s.drop 7
    let source := value.takeWhile (· ≠ ':')
    let rest := value.dropWhile (· ≠ ':')
    if endsC (strL ".volume") source then line
    else if source.head? = some '/' then line
    else if startsC (strL "init.d") source then
      let subpath0 := source.drop 6
      let subpath := if subpath0.head? = some '/' then subpath0.drop 1 else subpath0
      let newSource :=
        QUADLET_APP_BASE_DIR ++ strL "/" ++ app ++ strL "/init/" ++ containerName
          ++ (if subpath ≠ [] then '/' :: subpath else [])
      ws ++ strL "Volume=" ++ newSource ++ rest
    else if startsC (strL "config.d") source then
      let subpath0 := source.drop 8
      let subpath := if subpath0.head? = some '/' then subpath0.drop 1 else subpath0
      let newSource :=
        QUADLET_APP_BASE_DIR ++ strL "/" ++ app ++ strL "/config/" ++ containerName
          ++ (if subpath ≠ [] then '/' :: subpath else [])
      ws ++ strL "Volume=" ++ newSource ++ rest
    else line

/-- String-level wrapper for `ruleTwo`. -/
def ruleTwoS (app containerName line : String) : String :=
  strOf (ruleTwo (strL app) (strL containerName) (strL line))

/-! ## Rule 1 — `QuadletPreprocessor._apply_rule1_prefix_resources` -/

/-- The set `QuadletPreprocessor.RESOURCE_DIRECTIVES`. -/
def RESOURCE_DIRECTIVES : List Chars :=
  [strL "Network", strL "Pod", strL "Volume", strL "Wants", strL "Requires",
   strL "Requisite", strL "BindsTo", strL "PartOf", strL "Upholds",
   strL "Conflicts", strL "Before", strL "After"]

/-- The three resource suffixes of the Volume regex alternation. -/
def volSuffixes : List Chars := [strL ".volume", strL ".network", strL ".pod"]

/-- Compiled form of the source regex
`^([^/][^:]*\.(volume|network|pod))(:.+)?$` with the `$` anchored at the
absolute end of the value.  Group 1 is `c0 :: m` where `c0 ≠ '/'`, `m` is
the maximal colon-free run after `c0`, and `m` must end in one of the three
suffixes (the literal `\.` forces the dot to sit at position ≥ 1, which
`endsAnyC` on `m` captures).  The remainder is either empty or `':'`
followed by at least one non-newline character (`.` does not match a
newline).  The split is forced: group 1 cannot contain a colon past its
first character and the remainder must be empty or start with `':'`, so
backtracking cannot produce any other decomposition. -/
def volCore (value : Chars) : Option (Chars × Chars) :=
  match value with
  | [] => none
  | c0 :: t =>
    if c0 = '/' then none
    else
      let m := t.takeWhile (· ≠ ':')
      let rest := t.dropWhile (· ≠ ':')
      if endsAnyC volSuffixes m ∧ (rest = [] ∨ (2 ≤ rest.length ∧ rest.tail.all (· ≠ '\n'))) then
        some (c0 :: m, rest)
      else none

/-- Full `re.match` of the Volume regex: Python's `$` also matches just before a
single trailing newline, so a value ending in `'\n'` is retried without it. -/
def volMatch (value : Chars) : Option (Chars × Chars) :=
  match volCore value with
  | some r => some r
  | none => if value.getLast? = some '\n' then volCore value.dropLast else none

/-- The quadlet-related extensions tested by the non-Volume branch. -/
def quadletExts : List Chars :=
  [strL ".network", strL ".pod", strL ".volume", strL ".container",
   strL ".kube", strL ".service"]

/-- Rule 1 (reference prefixing), embedded from
`QuadletPreprocessor._apply_rule1_prefix_resources`. -/
def ruleOne (app : Chars) (line : Chars) : Chars :=
  let s := lstripC line
  if s = [] then line
  else if ¬ s.contains '=' then line
  else
    let dir := s.takeWhile (· ≠ '=')
    let value := (s.dropWhile (· ≠ '=')).tail
    if ¬ RESOURCE_DIRECTIVES.contains dir then line
    else
      let ws := line.take (line.length - s.length)
      if dir = strL "Volume" then
        match volMatch value with
        | some (ref, rest) => ws ++ dir ++ '=' :: (app ++ strL "--" ++ ref ++ rest)
        | none => line
      else if endsAnyC quadletExts value ∧ ¬ (value.head? = some '/') then
        ws ++ dir ++ '=' :: (app ++ strL "--" ++ value)
      else line

/-- String-level wrapper for `ruleOne`. -/
def ruleOneS (app line : String) : String := strOf (ruleOne (strL app) (strL line))

/-- Modelled from the claim's words: the Volume regex as the claim quotes
it, `^([^/][^:]*\.(volume|network|pod))(:.*)?$`, whose tail group `(:.*)?`
also accepts a lone trailing colon.  Used only to compare the claim against
the source's `(:.+)?` version. -/
def claimVolCore (value : Chars) : Option (Chars × Chars) :=
  match value with
  | [] => none
  | c0 :: t =>
    if c0 = '/' then none
    else
      let m := t.takeWhile (· ≠ ':')
      let rest := t.dropWhile (· ≠ ':')
      if endsAnyC volSuffixes m ∧ (rest = [] ∨ rest.tail.all (· ≠ '\n')) then
        some (c0 :: m, rest)
      else none

/-- Modelled from the claim's words: `re.match` of the claim's Volume
regex, with the same trailing-newline behaviour of `$`. -/
def claimVolMatch (value : Chars) : Option (Chars × Chars) :=
  match claimVolCore value with
  | some r => some r
  | none => if value.getLast? = some '\n' then claimVolCore value.dropLast else none

/-- Modelled from the claim's words: Rule 1 with the claim's Volume regex
in place of the source's. -/
def claimRuleOne (app : Chars) (line : Chars) : Chars :=
  let s := lstripC line
  if s = [] then line
  else if ¬ s.contains '=' then line
  else
    let dir := s.takeWhile (· ≠ '=')
    let value := (s.dropWhile (· ≠ '=')).tail
    if ¬ RESOURCE_DIRECTIVES.contains dir then line
    else
      let ws := line.take (line.length - s.length)
      if dir = strL "Volume" then
        match claimVolMatch value with
        | some (ref, rest) => ws ++ dir ++ '=' :: (app ++ strL "--" ++ ref ++ rest)
        | none => line
      else if endsAnyC quadletExts value ∧ ¬ (value.head? = some '/') then
        ws ++ dir ++ '=' :: (app ++ strL "--" ++ value)
      else line

/-- String-level wrapper for `claimRuleOne`. -/
def claimRuleOneS (app line : String) : String :=
  strOf (claimRuleOne (strL app) (strL line))

/-! ## Rule 3 — `QuadletPreprocessor._apply_rule3_inject_names` -/

/-- The table `QuadletPreprocessor.RESOURCE_NAME_DIRECTIVES` as a lookup on the file
extension: `(section name, directive name)`. -/
def RESOURCE_NAME_DIRECTIVES (ext : Chars) : Option (Chars × Chars) :=
  if ext = strL ".container" then some (strL "Container", strL "ContainerName")
  else if ext = strL ".pod" then some (strL "Pod", strL "PodName")
  else if ext = strL ".volume" then some (strL "Volume", strL "VolumeName")
  else if ext = strL ".network" then some (strL "Network", strL "NetworkName")
  else none

/-- The header test `stripped.startswith("[") and stripped.endswith("]")`. -/
def isHeaderLine (st : Chars) : Bool :=
  startsC (strL "[") st ∧ endsC (strL "]") st

/-- The section-parsing loop of `_apply_rule3_inject_names`: walks the
lines accumulating the current section (`cur` holds its lines reversed);
a section is emitted only when a header has been seen (`cs` is `some`), so
lines before the first header — and the whole document when it has no
header — are discarded, exactly as in the source. -/
def r3Parse : Option Chars → List Chars → List Chars → List (Chars × List Chars)
  | cs, cur, [] =>
    match cs with
    | some n => [(n, cur.reverse)]
    | none => []
  | cs, cur, l :: rest =>
    let st := stripC l
    if isHeaderLine st then
      (match cs with
       | some n => [(n, cur.reverse)]
       | none => []) ++ r3Parse (some ((st.drop 1).dropLast)) [l] rest
    else r3Parse cs (l :: cur) rest

/-- The `has_directive` check: some non-blank, non-comment line of the
section starts with `<Directive>=`. -/
def hasDirectiveIn (directive : Chars) (lns : List Chars) : Bool :=
  lns.any (fun ln =>
    let st := stripC ln
    st ≠ [] ∧ ¬ startsC (strL "#") st ∧ startsC (directive ++ strL "=") st)

/-- Insert `newLine` right after the first line whose stripped form starts
with `'['` (the section header); no insertion when no such line exists. -/
def injectAfterHeader (newLine : Chars) : List Chars → List Chars
  | [] => []
  | l :: rest =>
    if startsC (strL "[") (stripC l) then l :: newLine :: rest
    else l :: injectAfterHeader newLine rest

/-- The injection loop over parsed sections: the first section whose name
equals the target gets the directive injected (when not already present)
and the scan stops (`break` in the source). -/
def injectFirst (target directive value : Chars) :
    List (Chars × List Chars) → List (Chars × List Chars)
  | [] => []
  | (n, lns) :: rest =>
    if n = target then
      (n, if hasDirectiveIn directive lns then lns
          else injectAfterHeader (directive ++ '=' :: value) lns) :: rest
    else (n, lns) :: injectFirst target directive value rest

/-- Rule 3 (name injection), embedded from
`QuadletPreprocessor._apply_rule3_inject_names`. -/
def ruleThree (app filename content : Chars) : Chars :=
  match RESOURCE_NAME_DIRECTIVES (pathSuffix filename) with
  | none => content
  | some (sectionName, directive) =>
    let value := app ++ strL "--" ++ pathStem filename
    let secs := r3Parse none [] (splitOnC '\n' content)
    let secs2 := injectFirst sectionName directive value secs
    joinC '\n' (secs2.map Prod.snd).flatten

/-- String-level wrapper for `ruleThree`. -/
def ruleThreeS (app filename content : String) : String :=
  strOf (ruleThree (strL app) (strL filename) (strL content))

/-! ## Name validation — `QuadletValidator.validate_app_name` -/

/-- ASCII lowercasing; Python `str.lower()` agrees with this on ASCII text
(and additionally folds some non-ASCII letters, hence the ASCII hypotheses
on theorems quantifying over raw names). -/
def lowerA (c : Char) : Char :=
  if 65 ≤ c.toNat ∧ c.toNat ≤ 90 then Char.ofNat (c.toNat + 32) else c

/-- Python `str.lower()` on ASCII text. -/
def pyLower (s : Chars) : Chars := s.map lowerA

/-- Class `[a-z]`. -/
def isLowAlpha (c : Char) : Bool := 97 ≤ c.toNat ∧ c.toNat ≤ 122

/-- Class `[0-9]`. -/
def isDigitC (c : Char) : Bool := 48 ≤ c.toNat ∧ c.toNat ≤ 57

/-- Class `[a-z0-9_-]`. -/
def isNameMid (c : Char) : Bool := isLowAlpha c ∨ isDigitC c ∨ c = '_' ∨ c = '-'

/-- Class `[a-z0-9]`. -/
def isNameEnd (c : Char) : Bool := isLowAlpha c ∨ isDigitC c

/-- Compiled `^[a-z]$` (`APP_NAME_PATTERN_SINGLE`), anchored at the
absolute end. -/
def singleCore (s : Chars) : Bool :=
  match s with
  | [c] => isLowAlpha c
  | _ => false

/-- Tail matcher for `[a-z0-9_-]*[a-z0-9]$`: every character but the last
is in the middle class, the last is in the end class. -/
def multiTail : Chars → Bool
  | [] => false
  | [c] => isNameEnd c
  | c :: rest => isNameMid c && multiTail rest

/-- Compiled `^[a-z][a-z0-9_-]*[a-z0-9]$` (`APP_NAME_PATTERN_MULTI`),
anchored at the absolute end. -/
def multiCore : Chars → Bool
  | [] => false
  | c :: rest => isLowAlpha c && multiTail rest

/-- Python `re.match(p + "$", s)` for an anchored pattern: `$` matches at
the absolute end or just before one trailing newline. -/
def pyMatchEnd (core : Chars → Bool) (s : Chars) : Bool :=
  core s || (s.getLast? = some '\n' && core s.dropLast)

/-- Acceptance of `QuadletValidator.validate_app_name` on a raw name: the
constructor lowercases (`self.app_name = app_name.lower()`), then the
length-1 dispatch picks the pattern. -/
def validateAppNameOk (raw : Chars) : Bool :=
  let a := pyLower raw
  if a.length = 1 then pyMatchEnd singleCore a else pyMatchEnd multiCore a

/-- The `ValidationError` message of `validate_app_name`, parameterised by
the (already lowercased) name it reports. -/
def appNameErrorMsg (a : Chars) : Chars :=
  strL "Invalid application name: " ++ a ++
    strL (". Must start with a letter (a-z), end with a letter or number, " ++
      "and contain only lowercase letters, numbers, hyphens, and underscores.")

/-- Embedding of `QuadletValidator.validate_app_name` including the lowercasing done in
`__init__`: returns the normalized name or the naming error. -/
def validateAppName (raw : Chars) : Except Chars Chars :=
  let a := pyLower raw
  if validateAppNameOk raw then .ok a else .error (appNameErrorMsg a)

/-- String-level wrapper for `validateAppNameOk`. -/
def validateAppNameOkS (raw : String) : Bool := validateAppNameOk (strL raw)

/-- Modelled from the claim's words: the naming grammar applied literally
to the raw name — `^[a-z]$` for single-character names,
`^[a-z][a-z0-9_-]*[a-z0-9]$` otherwise, as an exact anchored match with no
lowercasing. -/
def claimGrammar (s : Chars) : Bool :=
  if s.length = 1 then singleCore s else multiCore s

/-- String-level wrapper for `claimGrammar`. -/
def claimGrammarS (s : String) : Bool := claimGrammar (strL s)

/-! ## SHA-256 — `QuadletIdempotency._calculate_checksum`

`hashlib.sha256(content.encode("utf-8")).hexdigest()`, embedded as FIPS
180-4 SHA-256 over a byte list, with 32-bit words as `Nat` reduced
`% 2 ^ 32` wherever overflow can occur. -/

/-- Rotate a 32-bit word right by `n`. -/
def rotr32 (n x : Nat) : Nat := ((x >>> n) ||| (x <<< (32 - n))) % 2 ^ 32

/-- Function `Σ0` of FIPS 180-4. -/
def bigSigma0 (x : Nat) : Nat := (rotr32 2 x) ^^^ (rotr32 13 x) ^^^ (rotr32 22 x)

/-- Function `Σ1` of FIPS 180-4. -/
def bigSigma1 (x : Nat) : Nat := (rotr32 6 x) ^^^ (rotr32 11 x) ^^^ (rotr32 25 x)

/-- Function `σ0` of FIPS 180-4. -/
def smallSigma0 (x : Nat) : Nat := (rotr32 7 x) ^^^ (rotr32 18 x) ^^^ (x >>> 3)

/-- Function `σ1` of FIPS 180-4. -/
def smallSigma1 (x : Nat) : Nat := (rotr32 17 x) ^^^ (rotr32 19 x) ^^^ (x >>> 10)

/-- Function `Ch(x,y,z)`; the complement of `x` is taken as xor with the 32-bit mask. -/
def chF (x y z : Nat) : Nat := (x &&& y) ^^^ ((x ^^^ (2 ^ 32 - 1)) &&& z)

/-- Function `Maj(x,y,z)`. -/
def majF (x y z : Nat) : Nat := (x &&& y) ^^^ (x &&& z) ^^^ (y &&& z)

/-- The 64 SHA-256 round constants. -/
def sha256K : List Nat :=
  [1116352408, 1899447441, 3049323471, 3921009573, 961987163,
   1508970993, 2453635748, 2870763221, 3624381080, 310598401,
   607225278, 1426881987, 1925078388, 2162078206, 2614888103,
   3248222580, 3835390401, 4022224774, 264347078, 604807628,
   770255983, 1249150122, 1555081692, 1996064986, 2554220882,
   2821834349, 2952996808, 3210313671, 3336571891, 3584528711,
   113926993, 338241895, 666307205, 773529912, 1294757372,
   1396182291, 1695183700, 1986661051, 2177026350, 2456956037,
   2730485921, 2820302411, 3259730800, 3345764771, 3516065817,
   3600352804, 4094571909, 275423344, 430227734, 506948616,
   659060556, 883997877, 958139571, 1322822218, 1537002063,
   1747873779, 1955562222, 2024104815, 2227730452, 2361852424,
   2428436474, 2756734187, 3204031479, 3329325298]

/-- The initial SHA-256 hash state. -/
def sha256H0 : List Nat :=
  [1779033703, 3144134277, 1013904242,
   2773480762, 1359893119, 2600822924,
   528734635, 1541459225]

/-- Big-endian bytes of `x`, `n` bytes wide (truncating above). -/
def toBytesBE (n x : Nat) : List Nat :=
  (List.range n).map (fun i => (x >>> (8 * (n - 1 - i))) % 256)

/-- SHA-256 message padding: `0x80`, zeros to 56 mod 64, 64-bit bit length. -/
def padMsg (msg : List Nat) : List Nat :=
  let l := msg.length
  let k := (119 - l % 64) % 64
  msg ++ [0x80] ++ List.replicate k 0 ++ toBytesBE 8 (8 * l)

/-- Big-endian 32-bit words from a byte list (length a multiple of 4). -/
def bytesToWordsBE : List Nat → List Nat
  | b0 :: b1 :: b2 :: b3 :: rest =>
    (((b0 * 256 + b1) * 256 + b2) * 256 + b3) :: bytesToWordsBE rest
  | _ => []

/-- Extend the 16-word message schedule to 64 words (48 extension steps). -/
def extendSchedule (w : List Nat) : List Nat :=
  (List.range 48).foldl
    (fun acc _ =>
      let i := acc.length
      acc ++ [(smallSigma1 (acc.getD (i - 2) 0) + acc.getD (i - 7) 0 +
               smallSigma0 (acc.getD (i - 15) 0) + acc.getD (i - 16) 0) % 2 ^ 32])
    w

/-- One SHA-256 round on the state `[a,b,c,d,e,f,g,h]`, given `Kt + Wt`. -/
def roundStep (st : List Nat) (kw : Nat) : List Nat :=
  match st with
  | [a, b, c, d, e, f, g, h] =>
    let t1 := (h + bigSigma1 e + chF e f g + kw) % 2 ^ 32
    let t2 := (bigSigma0 a + majF a b c) % 2 ^ 32
    [(t1 + t2) % 2 ^ 32, a, b, c, (d + t1) % 2 ^ 32, e, f, g]
  | _ => st

/-- Compress one 64-byte block into the hash state. -/
def sha256Compress (h : List Nat) (block : List Nat) : List Nat :=
  let w := extendSchedule (bytesToWordsBE block)
  let kw := (sha256K.zip w).map (fun p => (p.1 + p.2) % 2 ^ 32)
  let st := List.foldl roundStep h kw
  (h.zip st).map (fun p => (p.1 + p.2) % 2 ^ 32)

/-- Fold the compression over the 64-byte blocks of the padded message. -/
def sha256Run (msg : List Nat) : List Nat :=
  let padded := padMsg msg
  (List.range (padded.length / 64)).foldl
    (fun h i => sha256Compress h ((padded.drop (64 * i)).take 64)) sha256H0

/-- Lowercase hex digit. -/
def hexDigit (n : Nat) : Char :=
  if n < 10 then Char.ofNat (48 + n) else Char.ofNat (87 + n)

/-- Eight hex digits of a 32-bit word, most significant first. -/
def word8Hex (x : Nat) : Chars :=
  (List.range 8).map (fun i => hexDigit ((x >>> (4 * (7 - i))) % 16))

/-- SHA-256 hex digest of a byte list. -/
def sha256Hex (msg : List Nat) : Chars :=
  ((sha256Run msg).map word8Hex).flatten

/-- UTF-8 encoding of one code point. -/
def utf8Char (c : Char) : List Nat :=
  let n := c.toNat
  if n < 0x80 then [n]
  else if n < 0x800 then [0xC0 + n / 64, 0x80 + n % 64]
  else if n < 0x10000 then
    [0xE0 + n / 4096, 0x80 + (n / 64) % 64, 0x80 + n % 64]
  else
    [0xF0 + n / 262144, 0x80 + (n / 4096) % 64, 0x80 + (n / 64) % 64, 0x80 + n % 64]

/-- Python `content.encode("utf-8")`. -/
def utf8Bytes (s : Chars) : List Nat := (s.map utf8Char).flatten

/-- Embedding of `QuadletIdempotency._calculate_checksum`:
`hashlib.sha256(content.encode("utf-8")).hexdigest()`. -/
def calculateChecksum (content : String) : String :=
  strOf (sha256Hex (utf8Bytes (strL content)))

/-! ## Idempotency — `QuadletIdempotency.needs_deployment` -/

/-- What the filesystem holds at a destination path, as observed by
`_file_changed`: `os.path.exists` false, `os.path.isfile` false, `open`
raising `IOError`/`OSError`/`UnicodeDecodeError`, or readable content. -/
inductive FileState
  | absent
  | notRegularFile
  | unreadable
  | readable (content : String)
deriving DecidableEq

/-- Embedding of `QuadletIdempotency._file_changed`. -/
def fileChanged (fs : String → FileState) (destPath newContent : String) : Bool :=
  match fs destPath with
  | .absent => true
  | .notRegularFile => true
  | .unreadable => true
  | .readable existing =>
    if calculateChecksum existing = calculateChecksum newContent then false else true

/-- Embedding of `QuadletIdempotency.needs_deployment`: `processed_files` is the planned
destination-to-content mapping, iterated as a list of pairs. -/
def needsDeployment (force : Bool) (fs : String → FileState)
    (plan : List (String × String)) : Bool :=
  if force then true
  else plan.any (fun pc => fileChanged fs pc.1 pc.2)

/-! ## Structural validation — `QuadletValidator.validate_init_config_structure` -/

/-- The set `QuadletValidator.VALID_SUBDIR_SUFFIXES`. -/
def VALID_SUBDIR_SUFFIXES : List Chars := [strL ".container", strL ".pod"]

/-- Lexicographic (code-point) order on names, as Python `sorted` uses. -/
def lexLtC : Chars → Chars → Bool
  | [], [] => false
  | [], _ :: _ => true
  | _ :: _, [] => false
  | a :: xs, b :: ys => if a = b then lexLtC xs ys else decide (a < b)

/-- Insert into an ascending list (helper for `sortC`). -/
def insertSorted (x : Chars) : List Chars → List Chars
  | [] => [x]
  | y :: ys => if lexLtC y x then y :: insertSorted x ys else x :: y :: ys

/-- Python `sorted` on a list of names (insertion sort, ascending). -/
def sortC (l : List Chars) : List Chars := l.foldr insertSorted []

/-- The `matching` list: entries of `quadlets/` whose stem equals the
subdirectory name and whose suffix is `.container` or `.pod`.  `quad` is
`os.listdir(quadlets_dir)`. -/
def matchingQuadlets (quad : List Chars) (entry : Chars) : List Chars :=
  quad.filter (fun f =>
    pathStem f = entry ∧ VALID_SUBDIR_SUFFIXES.contains (pathSuffix f))

/-- A structural `ValidationError`, tagged with the directory
(`init.d`/`config.d`) and entry it reports. -/
inductive StructErr
  | suffixedDir (dirName entry : Chars)
  | noMatch (dirName entry : Chars)
  | ambiguous (dirName entry : Chars) (sortedMatches : List Chars)
deriving DecidableEq

/-- The per-subdirectory checks of `validate_init_config_structure`:
suffixed directory names are rejected, then the match against `quadlets/`
must be unique (the ambiguous error reports the sorted matches, as the
source message joins `sorted(matching)`). -/
def checkSubdirEntry (dirName : Chars) (quad : List Chars) (entry : Chars) :
    Except StructErr Unit :=
  if VALID_SUBDIR_SUFFIXES.contains (pathSuffix entry) then
    .error (.suffixedDir dirName entry)
  else
    let matching := matchingQuadlets quad entry
    if matching = [] then .error (.noMatch dirName entry)
    else if 1 < matching.length then
      .error (.ambiguous dirName entry (sortC matching))
    else .ok ()

/-- The entry loop: non-directory entries are skipped
(`if not os.path.isdir(entry_path): continue`), errors short-circuit. -/
def checkSubdirEntries (dirName : Chars) (quad : List Chars) :
    List (Chars × Bool) → Except StructErr Unit
  | [] => .ok ()
  | (entry, isDir) :: rest =>
    if isDir then
      match checkSubdirEntry dirName quad entry with
      | .error e => .error e
      | .ok () => checkSubdirEntries dirName quad rest
    else checkSubdirEntries dirName quad rest

/-- The source tree as observed by `validate_init_config_structure`:
`quadletEntries` is `os.listdir(src/quadlets)`; `initEntries` /
`configEntries` are `os.listdir` of `init.d` / `config.d` paired with
`os.path.isdir` of each entry, or `none` when the directory is absent. -/
structure SrcTree where
  quadletEntries : List Chars
  initEntries : Option (List (Chars × Bool))
  configEntries : Option (List (Chars × Bool))

/-- One directory of the loop in `validate_init_config_structure`: absent
directories are skipped (`if not os.path.isdir(dir_path): continue`). -/
def optCheck (dn : Chars) (quad : List Chars) :
    Option (List (Chars × Bool)) → Except StructErr Unit
  | none => .ok ()
  | some es => checkSubdirEntries dn quad es

/-- Embedding of `QuadletValidator.validate_init_config_structure`: `init.d` then
`config.d`, errors short-circuiting. -/
def validateStructure (t : SrcTree) : Except StructErr Unit :=
  match optCheck (strL "init.d") t.quadletEntries t.initEntries with
  | .error e => .error e
  | .ok () => optCheck (strL "config.d") t.quadletEntries t.configEntries

/-! ## Orchestration — `QuadletAppModule` -/

/-- Outcome of one `subprocess.run` call: a completed process (any exit
code; `check=False` never raises on exit status), a
`subprocess.TimeoutExpired`, a `FileNotFoundError` (missing executable) or
any other exception. -/
inductive ProcOutcome
  | ran (rc : Nat) (stdout stderr : String)
  | timedOut
  | noExe
  | otherErr
deriving DecidableEq

/-- The payload of an `AnsibleModule.fail_json` call: the message plus the
optional `cmd`/`rc`/`stdout`/`stderr` fields some call sites attach.
`fail_json` raises `SystemExit`, so a failure aborts the run. -/
structure Failure where
  msg : String
  cmd : Option String
  rc : Option Nat
  stdout : Option String
  stderr : Option String
deriving DecidableEq

/-- A failure carrying only a message. -/
def failMsg (m : String) : Failure := ⟨m, none, none, none, none⟩

/-- Python `str.strip()` on a `String`. -/
def pyStripS (s : String) : String := strOf (stripC (strL s))

/-- Python `" ".join(args)`. -/
def joinSp (args : List String) : String := joinC ' ' (args.map strL) |> strOf

/-- The generator binary used by `_validate_quadlet_syntax`. -/
def GENERATOR : String := "/usr/lib/systemd/system-generators/podman-system-generator"

/-- Embedding of `QuadletAppModule._validate_quadlet_syntax` on the dry-run outcome:
timeout and execution errors fail with a plain message; a non-zero exit
fails with `msg = stderr.strip()` and the full `cmd`/`rc`/`stdout`/`stderr`
fields (`stderr` verbatim). -/
def dryrunCheck (o : ProcOutcome) : Except Failure Unit :=
  match o with
  | .timedOut => .error (failMsg (GENERATOR ++ " -dryrun -v timed out"))
  | .noExe => .error (failMsg "Failed to execute quadlet syntax validation")
  | .otherErr => .error (failMsg "Failed to execute quadlet syntax validation")
  | .ran rc out err =>
    if rc ≠ 0 then
      .error ⟨pyStripS err, some (GENERATOR ++ " -dryrun -v"), some rc, some out, some err⟩
    else .ok ()

/-- Embedding of `QuadletAppModule._systemctl`: non-zero exit, timeout and any
execution exception (a missing `systemctl` executable included) call
`fail_json`. -/
def sysCtl (timeoutS : Nat) (args : List String) (o : ProcOutcome) :
    Except Failure Unit :=
  match o with
  | .ran rc out err =>
    if rc ≠ 0 then
      .error ⟨"systemctl " ++ joinSp args ++ " failed: " ++ pyStripS err,
              some ("systemctl " ++ joinSp args), some rc, some out, some err⟩
    else .ok ()
  | .timedOut =>
    .error (failMsg ("systemctl " ++ joinSp args ++ " timed out after " ++
      toString timeoutS ++ "s"))
  | .noExe => .error (failMsg "Failed to execute systemctl")
  | .otherErr => .error (failMsg "Failed to execute systemctl")

/-- Embedding of `QuadletAppModule._is_service_active`: active exactly when the query
ran with exit code 0 and `stdout.strip() == "active"`; every exception
(timeout, missing executable, anything else) is swallowed and reported as
inactive. -/
def isServiceActive (o : ProcOutcome) : Bool :=
  match o with
  | .ran rc out _ => rc = 0 && pyStripS out = "active"
  | _ => false

/-- Python `str.splitlines()` worker: current line accumulated reversed;
splits on `\n`, `\r\n` and `\r`; a terminal line break produces no trailing
empty line.  (Python also splits on a few rarer control characters, which
`systemctl` output does not contain.) -/
def splitlinesGo : Chars → Chars → List Chars
  | cur, [] => [cur.reverse]
  | cur, '\r' :: '\n' :: t => cur.reverse :: (if t = [] then [] else splitlinesGo [] t)
  | cur, '\n' :: t => cur.reverse :: (if t = [] then [] else splitlinesGo [] t)
  | cur, '\r' :: t => cur.reverse :: (if t = [] then [] else splitlinesGo [] t)
  | cur, c :: t => splitlinesGo (c :: cur) t

/-- Python `str.splitlines()`. -/
def splitlinesC (s : Chars) : List Chars :=
  match s with
  | [] => []
  | _ => splitlinesGo [] s

/-- The filtering loop of `_get_app_dependencies`: each stdout line is
left-stripped and kept when it starts with `<appName>--` and is not the
main service name itself. -/
def depsFilter (app svc : String) (out : String) : List String :=
  (((splitlinesC (strL out)).map lstripC).filter
    (fun l => startsC (strL app ++ strL "--") l ∧ l ≠ strL svc)).map strOf

/-- Embedding of `QuadletAppModule._get_app_dependencies` on the outcome of
`systemctl list-dependencies --type service <svc>`: non-zero exit and
timeout both return the empty list; a missing executable is fatal
(`fail_json`); any other exception escapes to the `run()` catch-all, which
also fails the module. -/
def getAppDeps (app svc : String) (o : ProcOutcome) : Except Failure (List String) :=
  match o with
  | .ran rc out _ => if rc ≠ 0 then .ok [] else .ok (depsFilter app svc out)
  | .timedOut => .ok []
  | .noExe => .error (failMsg "systemctl command not found")
  | .otherErr => .error (failMsg "Unexpected error")

/-- The name `f"{self.app_name}--main.service"`. -/
def mainService (app : String) : String := app ++ "--main.service"

/-- The stable environment of one run: outcomes of the external commands
the orchestrator can issue.  `activeQ` is the outcome of each
`systemctl is-active` query (the service state is taken as stable within
the run), `dryrun` the generator dry-run, `depsQ` the dependency listing,
and `lifecycle args` the outcome of `systemctl <args>`. -/
structure Env where
  activeQ : ProcOutcome
  dryrun : ProcOutcome
  depsQ : ProcOutcome
  lifecycle : List String → ProcOutcome

/-- Observable external events of a run, in order: `systemctl is-active`
queries, `systemctl list-dependencies` queries, the generator dry run, and
state-changing `systemctl <args>` commands. -/
inductive Ev
  | activeQuery
  | depsQuery
  | dryrunRun
  | ctl (args : List String)
deriving DecidableEq

/-- The `state` parameter. -/
inductive AppState
  | installed
  | started
  | restarted
deriving DecidableEq

/-- Embedding of `QuadletAppModule._restart_dependencies`: fetch the app-prefixed
dependencies and restart them all in one batched `systemctl restart`
command (nothing issued when there are none). -/
def restartDependencies (env : Env) (timeoutS : Nat) (app svc : String) :
    List Ev × Except Failure Unit :=
  match getAppDeps app svc env.depsQ with
  | .error f => ([.depsQuery], .error f)
  | .ok deps =>
    if deps = [] then ([.depsQuery], .ok ())
    else
      ([.depsQuery, .ctl ("restart" :: deps)],
       sysCtl timeoutS ("restart" :: deps) (env.lifecycle ("restart" :: deps)))

/-- The part of `QuadletAppModule._manage_systemd` after the reload block:
the `needs_restart` decision (querying `is-active` only when
`state == "started" and self.changed`, by `and` short-circuit), then either
the dependency-then-main restart, or the start-if-inactive branch (which
queries `is-active` again), else nothing.  `serviceChanged` is the value
accumulated by the reload block. -/
def manageSystemdTail (env : Env) (timeoutS : Nat) (app : String)
    (changed : Bool) (st : AppState) (serviceChanged : Bool) :
    List Ev × Except Failure Bool :=
  let svc := mainService app
  let pre : Bool × List Ev :=
    match st with
    | .restarted => (true, [])
    | .started =>
      if changed then (isServiceActive env.activeQ, [Ev.activeQuery]) else (false, [])
    | .installed => (false, [])
  let needsRestart := pre.1
  let ev1 := pre.2
  if needsRestart then
    match restartDependencies env timeoutS app svc with
    | (ev2, .error f) => (ev1 ++ ev2, .error f)
    | (ev2, .ok ()) =>
      match sysCtl timeoutS ["restart", svc] (env.lifecycle ["restart", svc]) with
      | .error f => (ev1 ++ ev2 ++ [.ctl ["restart", svc]], .error f)
      | .ok () => (ev1 ++ ev2 ++ [.ctl ["restart", svc]], .ok true)
  else
    match st with
    | .started =>
      if isServiceActive env.activeQ then (ev1 ++ [Ev.activeQuery], .ok serviceChanged)
      else
        match sysCtl timeoutS ["start", svc] (env.lifecycle ["start", svc]) with
        | .error f => (ev1 ++ [Ev.activeQuery, .ctl ["start", svc]], .error f)
        | .ok () => (ev1 ++ [Ev.activeQuery, .ctl ["start", svc]], .ok true)
    | _ => (ev1, .ok serviceChanged)

/-- Embedding of `QuadletAppModule._manage_systemd`: when files changed, run the
generator dry-run gate and then `daemon-reload`; then the restart/start
decision.  Returns the events issued and `service_changed` (or the fatal
failure). -/
def manageSystemd (env : Env) (timeoutS : Nat) (app : String)
    (changed : Bool) (st : AppState) : List Ev × Except Failure Bool :=
  if changed then
    match dryrunCheck env.dryrun with
    | .error f => ([.dryrunRun], .error f)
    | .ok () =>
      match sysCtl timeoutS ["daemon-reload"] (env.lifecycle ["daemon-reload"]) with
      | .error f => ([.dryrunRun, .ctl ["daemon-reload"]], .error f)
      | .ok () =>
        match manageSystemdTail env timeoutS app changed st true with
        | (ev, r) => (Ev.dryrunRun :: Ev.ctl ["daemon-reload"] :: ev, r)
  else manageSystemdTail env timeoutS app changed st false

/-- Embedding of `QuadletAppModule._needs_service_management`, with the `is-active`
query it issues for `state == "started"`. -/
def needsServiceMgmt (env : Env) (st : AppState) : Bool × List Ev :=
  match st with
  | .started => (!isServiceActive env.activeQ, [Ev.activeQuery])
  | .restarted => (true, [])
  | .installed => (false, [])

/-- Result of a successful run (the `changed` flag of `exit_json`). -/
structure RunResult where
  changed : Bool
deriving DecidableEq

/-- Phases 4-6 of `QuadletAppModule.run`, after validation and
preprocessing: the idempotency verdict `needsUpdate` (phase 4), the early
`changed=False` exit, the file deployment (phase 5, filesystem writes are
not part of the event trace) and `_manage_systemd` (phase 6). -/
def runService (env : Env) (timeoutS : Nat) (app : String) (st : AppState)
    (needsUpdate : Bool) : List Ev × Except Failure RunResult :=
  let pre := needsServiceMgmt env st
  let needsMgmt := pre.1
  let ev0 := pre.2
  if !needsUpdate && !needsMgmt then (ev0, .ok ⟨false⟩)
  else
    let changed := needsUpdate
    if needsUpdate || needsMgmt then
      match manageSystemd env timeoutS app changed st with
      | (ev1, .error f) => (ev0 ++ ev1, .error f)
      | (ev1, .ok serviceChanged) => (ev0 ++ ev1, .ok ⟨changed || serviceChanged⟩)
    else (ev0, .ok ⟨changed⟩)

/-! ## Specification-side predicates used in theorem statements -/

/-- Strip one leading slash, as Rule 2 does to the subpath. -/
def stripLeadSlash (s : Chars) : Chars :=
  if s.head? = some '/' then s.drop 1 else s

/-- The claim's reading of one `init.d`/`config.d` subpath rewrite target:
`<app-base>/<appName>/<kind>/<unitStem>` with `/<subpath>` appended only
when the subpath is non-empty. -/
def redirTarget (app cn kind subpath : Chars) : Chars :=
  QUADLET_APP_BASE_DIR ++ strL "/" ++ app ++ strL "/" ++ kind ++ strL "/" ++ cn ++
    (if subpath ≠ [] then '/' :: subpath else [])

/-- Membership form of the Volume-regex match `volCore value = some (ref, rst)`:
the value splits as a non-slash first character, a colon-free middle ending
in `.volume`/`.network`/`.pod`, and a remainder that is empty or a colon
followed by at least one character, none of them a newline. -/
def VolMatchP (value ref rst : Chars) : Prop :=
  ∃ c0 m, value = c0 :: m ++ rst ∧ ref = c0 :: m ∧ c0 ≠ '/' ∧
    (∀ c ∈ m, c ≠ ':') ∧ endsAnyC volSuffixes m = true ∧
    (rst = [] ∨ (rst.head? = some ':' ∧ 2 ≤ rst.length ∧ ∀ c ∈ rst.tail, c ≠ '\n'))

/-- Membership form of the multi-character name pattern
`^[a-z][a-z0-9_-]*[a-z0-9]$`. -/
def GrammarMultiP (s : Chars) : Prop :=
  ∃ c m e, s = c :: m ++ [e] ∧ isLowAlpha c = true ∧
    (∀ x ∈ m, isNameMid x = true) ∧ isNameEnd e = true

/-- The claim's acceptance condition for one `init.d`/`config.d` entry
list: every subdirectory entry is unsuffixed and matches exactly one
quadlet file. -/
def GoodEntries (quad : List Chars) (es : List (Chars × Bool)) : Prop :=
  ∀ e isDir, (e, isDir) ∈ es → isDir = true →
    VALID_SUBDIR_SUFFIXES.contains (pathSuffix e) = false ∧
    (matchingQuadlets quad e).length = 1

/-- The claim's per-file change condition: destination missing, not a
regular file, unreadable, or with a different SHA-256 checksum. -/
def FileChangedP (fs : String → FileState) (p c : String) : Prop :=
  fs p = .absent ∨ fs p = .notRegularFile ∨ fs p = .unreadable ∨
    ∃ e, fs p = .readable e ∧ calculateChecksum e ≠ calculateChecksum c

/-- A concrete environment whose `is-active` query hits a missing
`systemctl` executable while every other command succeeds. -/
def envNoExe : Env := ⟨.noExe, .ran 0 "" "", .ran 0 "" "", fun _ => .ran 0 "" ""⟩

/-- A concrete environment: service inactive, all commands succeed. -/
def envInactive : Env :=
  ⟨.ran 3 "inactive\n" "", .ran 0 "" "", .ran 0 "" "", fun _ => .ran 0 "" ""⟩

/-- A concrete environment: service active, one app-prefixed dependency
in the `list-dependencies` output, all commands succeed. -/
def envActiveDeps : Env :=
  ⟨.ran 0 "active\n" "", .ran 0 "" "",
   .ran 0 "shop--main.service\n  shop--db.service\n  other.service\n" "",
   fun _ => .ran 0 "" ""⟩

/-! ## Helper lemmas on the text primitives -/

theorem dropWhile_of_head_neg {α : Type} (p : α → Bool) (s : List α)
    (h : ∀ c, s.head? = some c → p c = false) : s.dropWhile p = s := by
  cases s with
  | nil => rfl
  | cons c t =>
    have hc := h c rfl
    simp [List.dropWhile, hc]

theorem dropWhile_append_all {α : Type} (p : α → Bool) (ws s : List α)
    (hws : ws.all p = true) (h : ∀ c, s.head? = some c → p c = false) :
    (ws ++ s).dropWhile p = s := by
  induction ws with
  | nil => simpa using dropWhile_of_head_neg p s h
  | cons w t ih =>
    simp only [List.all_cons, Bool.and_eq_true] at hws
    simp [List.dropWhile, hws.1, ih hws.2]

theorem takeWhile_append_all {α : Type} (p : α → Bool) (xs ys : List α)
    (hxs : xs.all p = true) (h : ∀ c, ys.head? = some c → p c = false) :
    (xs ++ ys).takeWhile p = xs := by
  induction xs with
  | nil =>
    cases ys with
    | nil => rfl
    | cons c t => have hc := h c rfl; simp [List.takeWhile, hc]
  | cons x t ih =>
    simp only [List.all_cons, Bool.and_eq_true] at hxs
    simp [List.takeWhile, hxs.1, ih hxs.2]

theorem take_len_sub_append (ws s : List Char) :
    (ws ++ s).take ((ws ++ s).length - s.length) = ws := by
  have h : (ws ++ s).length - s.length = ws.length := by
    simp [List.length_append]
  rw [h, List.take_left]

theorem startsC_append (p x : Chars) : startsC p (p ++ x) = true := by
  simp [startsC, List.isPrefixOf_iff_prefix]

theorem head_dropWhile_neg {α : Type} (p : α → Bool) (s : List α) :
    ∀ c, (s.dropWhile p).head? = some c → p c = false := by
  induction s with
  | nil => intro c h; simp [List.dropWhile] at h
  | cons x t ih =>
    intro c h
    by_cases hx : p x
    · rw [List.dropWhile_cons_of_pos hx] at h; exact ih c h
    · rw [List.dropWhile_cons_of_neg hx] at h
      simp at h
      subst h
      exact Bool.eq_false_iff.mpr hx

/-! ## C8 — Rule 2 behaviour -/

/-- Claim C8: on every `Volume=` line, Rule 2 splits the value at the first
colon into `src` and `rst` (`rst` keeps its leading colon); a source
ending in `.volume` or starting with `/` leaves the line unchanged; a
source starting with `init.d`/`config.d` has that literal prefix and one
following leading slash stripped and is rewritten to
`<app-base>/<appName>/<init|config>/<unitStem>[/<subpath>]` with the
remainder preserved; every other source is unchanged.  Leading whitespace
is preserved.  Includes the claim's concrete example
(`Volume=init.d/secrets:/run/secrets` in `main.container` under `shop`). -/
theorem ruleTwo_spec :
    (∀ app cn ws src rst,
      ws.all pySpace = true →
      (∀ c ∈ src, c ≠ ':') →
      (∀ c, rst.head? = some c → c = ':') →
      ruleTwo app cn (ws ++ strL "Volume=" ++ src ++ rst) =
        (if endsC (strL ".volume") src = true then ws ++ strL "Volume=" ++ src ++ rst
         else if src.head? = some '/' then ws ++ strL "Volume=" ++ src ++ rst
         else if startsC (strL "init.d") src = true then
           ws ++ strL "Volume=" ++
             redirTarget app cn (strL "init") (stripLeadSlash (src.drop 6)) ++ rst
         else if startsC (strL "config.d") src = true then
           ws ++ strL "Volume=" ++
             redirTarget app cn (strL "config") (stripLeadSlash (src.drop 8)) ++ rst
         else ws ++ strL "Volume=" ++ src ++ rst))
    ∧ ruleTwoS "shop" "main" "Volume=init.d/secrets:/run/secrets" =
        "Volume=/srv/shop/init/main/secrets:/run/secrets" := by
  constructor
  · intro app cn ws src rst hws hsrc hrst
    have hV : strL "Volume=" = 'V' :: strL "olume=" := rfl
    have hhead : ∀ c, (strL "Volume=" ++ (src ++ rst)).head? = some c →
        pySpace c = false := by
      intro c hc
      rw [hV] at hc
      simp only [List.cons_append, List.head?_cons, Option.some.injEq] at hc
      subst hc; decide
    have hl : lstripC (ws ++ (strL "Volume=" ++ (src ++ rst))) =
        strL "Volume=" ++ (src ++ rst) :=
      dropWhile_append_all pySpace ws _ hws hhead
    have hsall : src.all (fun c => decide (c ≠ ':')) = true := by
      simp only [List.all_eq_true, decide_eq_true_eq]; exact hsrc
    have hrneg : ∀ c, rst.head? = some c → decide (c ≠ ':') = false := by
      intro c hc
      have := hrst c hc
      simp [this]
    have htw : (src ++ rst).takeWhile (fun c => decide (c ≠ ':')) = src :=
      takeWhile_append_all _ src rst hsall hrneg
    have hdw : (src ++ rst).dropWhile (fun c => decide (c ≠ ':')) = rst :=
      dropWhile_append_all _ src rst hsall hrneg
    have hlen : (strL "Volume=").length = 7 := rfl
    simp only [List.append_assoc]
    simp only [ruleTwo, hl, startsC_append, take_len_sub_append, not_true,
      if_false, Bool.not_true, ← hlen, List.drop_left, htw, hdw]
    simp only [redirTarget, stripLeadSlash, List.append_assoc]
    rfl
  · rfl

/-! ## C1 — Rule 3 name injection -/

/-- Claim C1 (divergence witness): the section parser of Rule 3 discards
every line before the first `[Section]` header instead of preserving it
verbatim.  First conjunct: a document with a comment line before
`[Volume]` loses that line (while the `VolumeName=` injection itself works
as described).  Second conjunct: a document with no section header at all
is replaced by the empty string.  Third conjunct: even when the target
section is absent (here a `.volume` file with only a `[Container]`
section), the pre-header comment is still dropped, so the content is not
"returned unchanged". -/
theorem ruleThree_drops_preamble :
    ruleThreeS "shop" "main.volume" "# header comment\n[Volume]\nDevice=tmpfs" =
      "[Volume]\nVolumeName=shop--main\nDevice=tmpfs" ∧
    ruleThreeS "shop" "main.volume" "# only a comment, no section header" = "" ∧
    ruleThreeS "shop" "main.volume" "# note\n[Container]\nImage=i" =
      "[Container]\nImage=i" :=
  ⟨rfl, rfl, rfl⟩

/-! ## C3 — Rule 1 reference prefixing -/

/-- Claim C3 (counterexample): the claim quotes the Volume regex with tail
`(:.*)?`, under which the value `data.volume:` matches (empty remainder
after the colon) and the claim demands the rewrite
`Volume=shop--data.volume:`.  The source regex has `(:.+)?`, so the code
leaves the line unchanged. -/
theorem ruleOne_trailing_colon_cex :
    ruleOneS "shop" "Volume=data.volume:" = "Volume=data.volume:" ∧
    claimRuleOneS "shop" "Volume=data.volume:" = "Volume=shop--data.volume:" ∧
    claimRuleOneS "shop" "Volume=data.volume:" ≠ ruleOneS "shop" "Volume=data.volume:" :=
  ⟨rfl, rfl, by decide⟩

theorem volCore_eq_some_iff (value ref rst : Chars) :
    volCore value = some (ref, rst) ↔ VolMatchP value ref rst := by
  constructor
  · intro h
    match value with
    | [] => simp [volCore] at h
    | c0 :: t =>
      by_cases hc : c0 = '/'
      · simp [volCore, hc] at h
      · rw [volCore] at h
        simp only [if_neg hc] at h
        split at h
        next hcond =>
          injection h with h'
          injection h' with h1 h2
          refine ⟨c0, t.takeWhile (fun c => decide (c ≠ ':')), ?_, ?_, hc, ?_, ?_, ?_⟩
          · rw [← h2]
            simp only [List.cons_append]
            rw [List.takeWhile_append_dropWhile]
          · exact h1.symm
          · intro c hcm
            have := List.mem_takeWhile_imp hcm
            simpa using this
          · exact hcond.1
          · rcases hcond.2 with h0 | ⟨hlen, hnl⟩
            · left; rw [← h2]; exact h0
            · right
              refine ⟨?_, ?_, ?_⟩
              · rcases he : t.dropWhile (fun c => decide (c ≠ ':')) with _ | ⟨x, xs⟩
                · rw [he] at hlen; simp at hlen
                · have hx := head_dropWhile_neg (fun c => decide (c ≠ ':')) t x
                  rw [he] at hx
                  have := hx rfl
                  simp only [decide_not, Bool.not_eq_false', decide_eq_true_eq] at this
                  rw [← h2, he, this]
                  rfl
              · rw [← h2]; exact hlen
              · intro c hcm
                have : (t.dropWhile (fun c => decide (c ≠ ':'))).tail.all
                    (fun c => decide (c ≠ '\n')) = true := hnl
                rw [List.all_eq_true] at this
                have := this c (by rw [h2]; exact hcm)
                simpa using this
        next => exact absurd h (by simp)
  · rintro ⟨c0, m, hval, href, hc, hm, hsuf, hrest⟩
    have hmall : m.all (fun c => decide (c ≠ ':')) = true := by
      rw [List.all_eq_true]; intro x hx; simpa using hm x hx
    have hrneg : ∀ c, rst.head? = some c → (fun c => decide (c ≠ ':')) c = false := by
      intro c hch
      rcases hrest with h0 | ⟨hh, _, _⟩
      · subst h0; simp at hch
      · rw [hh] at hch
        injection hch with hcc
        subst hcc; simp
    have htw : (m ++ rst).takeWhile (fun c => decide (c ≠ ':')) = m :=
      takeWhile_append_all _ m rst hmall hrneg
    have hdw : (m ++ rst).dropWhile (fun c => decide (c ≠ ':')) = rst :=
      dropWhile_append_all _ m rst hmall hrneg
    subst hval href
    simp only [List.cons_append, volCore, if_neg hc, htw, hdw]
    have hcond : endsAnyC volSuffixes m = true ∧
        (rst = [] ∨ (2 ≤ rst.length ∧ rst.tail.all (fun c => decide (c ≠ '\n')) = true)) := by
      refine ⟨hsuf, ?_⟩
      rcases hrest with h0 | ⟨_, hlen, hnl⟩
      · exact Or.inl h0
      · refine Or.inr ⟨hlen, ?_⟩
        rw [List.all_eq_true]
        intro x hx
        simpa using hnl x hx
    rw [if_pos hcond]

theorem volMatch_no_newline (value : Chars) (h : '\n' ∉ value) :
    volMatch value = volCore value := by
  rw [volMatch]
  cases hv : volCore value with
  | some r => rfl
  | none =>
    rcases hg : value.getLast? with _ | c
    · simp
    · by_cases hc : c = '\n'
      · subst hc
        rw [List.getLast?_eq_some_iff] at hg
        rcases hg with ⟨ys, hys⟩
        exact absurd (by rw [hys]; simp : '\n' ∈ value) h
      · simp [hc]

/-- Claim C2 helper: membership of `'='` in the reassembled line. -/
theorem contains_eq_mid (dir value : Chars) :
    (dir ++ '=' :: value).contains '=' = true := by
  rw [List.contains, List.elem_iff]
  simp

/-- Claim C3 (amended): Rule 1 on an eligible-shaped line.  The amendment
replaces the claim's `(:.*)?` tail by the source's `(:.+)?`: the remainder
is either empty or a colon followed by at least one character.  First
conjunct: the full line-level behaviour — directives outside the eligible
set leave the line unchanged; `Volume` values are rewritten through the
regex; other eligible directives are prefixed exactly when the value ends
in a quadlet extension and does not start with `/`; leading whitespace is
preserved.  Second conjunct: the regex match is exactly the claimed
decomposition (with the `(:.+)?` tail). -/
theorem ruleOne_amended :
    (∀ app ws dir value,
      ws.all pySpace = true →
      (∀ c, dir.head? = some c → pySpace c = false) →
      (∀ c ∈ dir, c ≠ '=') →
      '\n' ∉ value →
      ruleOne app (ws ++ dir ++ '=' :: value) =
        (if RESOURCE_DIRECTIVES.contains dir = true then
          if dir = strL "Volume" then
            match volCore value with
            | some (ref, rst) => ws ++ dir ++ '=' :: (app ++ strL "--" ++ ref ++ rst)
            | none => ws ++ dir ++ '=' :: value
          else if endsAnyC quadletExts value = true ∧ ¬ (value.head? = some '/') then
            ws ++ dir ++ '=' :: (app ++ strL "--" ++ value)
          else ws ++ dir ++ '=' :: value
        else ws ++ dir ++ '=' :: value))
    ∧ (∀ value ref rst, volCore value = some (ref, rst) ↔ VolMatchP value ref rst) := by
  constructor
  · intro app ws dir value hws hdh hde hnl
    have hhead : ∀ c, (dir ++ '=' :: value).head? = some c → pySpace c = false := by
      intro c hc
      cases dir with
      | nil =>
        simp only [List.nil_append, List.head?_cons, Option.some.injEq] at hc
        subst hc; decide
      | cons d t =>
        simp only [List.cons_append, List.head?_cons, Option.some.injEq] at hc
        subst hc; exact hdh d rfl
    have hl : lstripC (ws ++ (dir ++ '=' :: value)) = dir ++ '=' :: value :=
      dropWhile_append_all pySpace ws _ hws hhead
    have hne : (dir ++ '=' :: value) ≠ [] := by simp
    have hdall : dir.all (fun c => decide (c ≠ '=')) = true := by
      rw [List.all_eq_true]; intro x hx; simpa using hde x hx
    have heneg : ∀ c, ('=' :: value).head? = some c →
        (fun c => decide (c ≠ '=')) c = false := by
      intro c hc
      simp only [List.head?_cons, Option.some.injEq] at hc
      subst hc; simp
    have htw : (dir ++ '=' :: value).takeWhile (fun c => decide (c ≠ '=')) = dir :=
      takeWhile_append_all _ dir _ hdall heneg
    have hdw : (dir ++ '=' :: value).dropWhile (fun c => decide (c ≠ '=')) = '=' :: value :=
      dropWhile_append_all _ dir _ hdall heneg
    simp only [List.append_assoc]
    simp only [ruleOne, hl, hne, contains_eq_mid, htw, hdw,
      take_len_sub_append, List.tail_cons, volMatch_no_newline value hnl,
      Bool.not_true, if_false, not_true, ite_false, ite_true, ite_not]
    simp only [List.append_assoc]
  · exact volCore_eq_some_iff

/-- Witness instantiating `ruleOne_amended`: the line `Network=main.network`
under app `shop` (the spec's own Rule 1 example) and the regex
characterization at `data.volume:/data`. -/
theorem ruleOne_amended_witness :
    ((strL "").all pySpace = true ∧
      (∀ c, (strL "Network").head? = some c → pySpace c = false) ∧
      (∀ c ∈ strL "Network", c ≠ '=') ∧ '\n' ∉ strL "main.network") ∧
    ruleOne (strL "shop") (strL "" ++ strL "Network" ++ '=' :: strL "main.network") =
      (if RESOURCE_DIRECTIVES.contains (strL "Network") = true then
        if strL "Network" = strL "Volume" then
          match volCore (strL "main.network") with
          | some (ref, rst) =>
            strL "" ++ strL "Network" ++ '=' :: (strL "shop" ++ strL "--" ++ ref ++ rst)
          | none => strL "" ++ strL "Network" ++ '=' :: strL "main.network"
        else if endsAnyC quadletExts (strL "main.network") = true ∧
            ¬ ((strL "main.network").head? = some '/') then
          strL "" ++ strL "Network" ++ '=' :: (strL "shop" ++ strL "--" ++ strL "main.network")
        else strL "" ++ strL "Network" ++ '=' :: strL "main.network"
      else strL "" ++ strL "Network" ++ '=' :: strL "main.network") ∧
    (volCore (strL "data.volume:/data") =
        some (strL "data.volume", strL ":/data") ↔
      VolMatchP (strL "data.volume:/data") (strL "data.volume") (strL ":/data")) :=
  ⟨⟨by decide, by decide, by decide, by decide⟩,
   ruleOne_amended.1 (strL "shop") (strL "") (strL "Network") (strL "main.network")
     (by decide) (by decide) (by decide) (by decide),
   ruleOne_amended.2 (strL "data.volume:/data") (strL "data.volume") (strL ":/data")⟩

/-! ## C2 — application-name validation -/

/-- Claim C2 (counterexample): the raw name `AB` contains uppercase letters
and does not match the claim's grammar, yet validation accepts it: the
constructor lowercases the name before the pattern check, so `AB` is
normalized to `ab` and accepted rather than rejected. -/
theorem appName_uppercase_accepted :
    validateAppNameOkS "AB" = true ∧
    claimGrammarS "AB" = false ∧
    validateAppName (strL "AB") = .ok (strL "ab") :=
  ⟨rfl, rfl, rfl⟩

theorem multiTail_iff (s : Chars) :
    multiTail s = true ↔
      ∃ m e, s = m ++ [e] ∧ (∀ x ∈ m, isNameMid x = true) ∧ isNameEnd e = true := by
  induction s with
  | nil =>
    constructor
    · intro h; simp [multiTail] at h
    · rintro ⟨m, e, hme, -, -⟩
      exact absurd hme.symm (by simp)
  | cons c t ih =>
    cases t with
    | nil =>
      constructor
      · intro h
        exact ⟨[], c, rfl, by simp, h⟩
      · rintro ⟨m, e, hme, hm, he⟩
        match m, hme with
        | [], hme =>
          simp only [List.nil_append, List.cons.injEq] at hme
          rw [show multiTail [c] = isNameEnd c from rfl, hme.1]
          exact he
        | x :: xs, hme =>
          simp only [List.cons_append, List.cons.injEq] at hme
          exact absurd hme.2 (by simp)
    | cons c2 t2 =>
      have hstep : multiTail (c :: c2 :: t2) = (isNameMid c && multiTail (c2 :: t2)) := rfl
      rw [hstep, Bool.and_eq_true, ih]
      constructor
      · rintro ⟨hmid, m, e, hme, hm, he⟩
        refine ⟨c :: m, e, ?_, ?_, he⟩
        · rw [List.cons_append, hme]
        · intro x hx
          rcases List.mem_cons.mp hx with hx | hx
          · subst hx; exact hmid
          · exact hm x hx
      · rintro ⟨m, e, hme, hm, he⟩
        match m, hme with
        | [], hme =>
          simp only [List.nil_append, List.cons.injEq] at hme
          exact absurd hme.2 (by simp)
        | x :: xs, hme =>
          simp only [List.cons_append, List.cons.injEq] at hme
          refine ⟨?_, xs, e, hme.2, ?_, he⟩
          · rw [hme.1]; exact hm x (List.mem_cons_self x xs)
          · intro y hy; exact hm y (List.mem_cons_of_mem x hy)

theorem multiCore_iff (s : Chars) : multiCore s = true ↔ GrammarMultiP s := by
  cases s with
  | nil =>
    constructor
    · intro h; simp [multiCore] at h
    · rintro ⟨c, m, e, hme, -, -, -⟩
      exact absurd hme.symm (by simp)
  | cons c t =>
    have hstep : multiCore (c :: t) = (isLowAlpha c && multiTail t) := rfl
    rw [hstep, Bool.and_eq_true, multiTail_iff]
    constructor
    · rintro ⟨hlow, m, e, hme, hm, he⟩
      exact ⟨c, m, e, by rw [List.cons_append, hme], hlow, hm, he⟩
    · rintro ⟨c', m, e, hme, hlow, hm, he⟩
      rw [List.cons_append] at hme
      injection hme with h1 h2
      subst h1
      exact ⟨hlow, m, e, h2, hm, he⟩

theorem lowerA_eq_self_of_not_upper (c : Char)
    (h : ¬ (65 ≤ c.toNat ∧ c.toNat ≤ 90)) : lowerA c = c := by
  rw [lowerA, if_neg]
  simpa using h

theorem multiCore_head_false (c : Char) (t : Chars) (h : isLowAlpha c = false) :
    multiCore (c :: t) = false := by
  rw [show multiCore (c :: t) = (isLowAlpha c && multiTail t) from rfl, h]
  simp

theorem multiCore_getLast (s : Chars) (e : Char) (hm : multiCore s = true)
    (hg : s.getLast? = some e) : isNameEnd e = true := by
  rcases (multiCore_iff s).mp hm with ⟨c, m, e', hme, -, -, he'⟩
  rw [hme, List.getLast?_concat] at hg
  injection hg with hg1
  rw [← hg1]
  exact he'

/-- Claim C2 (amended): validation lowercases the raw name first (ASCII case
folding) and then accepts exactly the names matching the length-dispatched
patterns under Python `re.match` semantics, whose `$` also accepts one
trailing newline before the end.  In particular the empty name, names
starting with a digit and names ending with a hyphen are rejected, while a
name containing uppercase letters is normalized rather than rejected; a
rejected name produces the naming-specific `ValidationError` message and
an accepted one returns the lowercased name. -/
theorem appName_validation_amended :
    (∀ raw : Chars, (∀ c ∈ raw, c.toNat < 128) →
      (validateAppNameOk raw = true ↔
        (if (pyLower raw).length = 1 then
           ∃ c, pyLower raw = [c] ∧ isLowAlpha c = true
         else GrammarMultiP (pyLower raw) ∨
           ((pyLower raw).getLast? = some '\n' ∧ GrammarMultiP (pyLower raw).dropLast))))
    ∧ validateAppNameOk [] = false
    ∧ (∀ raw c, raw.head? = some c → isDigitC c = true → validateAppNameOk raw = false)
    ∧ (∀ raw, raw.getLast? = some '-' → validateAppNameOk raw = false)
    ∧ (∀ raw, validateAppNameOk raw = false →
        validateAppName raw = .error (appNameErrorMsg (pyLower raw)))
    ∧ (∀ raw, validateAppNameOk raw = true → validateAppName raw = .ok (pyLower raw)) := by
  refine ⟨?_, by decide, ?_, ?_, ?_, ?_⟩
  · intro raw _hA
    simp only [validateAppNameOk]
    by_cases hlen : (pyLower raw).length = 1
    · rw [if_pos hlen, if_pos hlen]
      rcases hp : pyLower raw with _ | ⟨x, t⟩
      · rw [hp] at hlen; simp at hlen
      · rw [hp] at hlen
        simp only [List.length_cons] at hlen
        have ht : t = [] := by
          cases t with
          | nil => rfl
          | cons y ys => simp at hlen
        subst ht
        constructor
        · intro h
          rw [pyMatchEnd, Bool.or_eq_true] at h
          rcases h with h | h
          · exact ⟨x, rfl, h⟩
          · rw [Bool.and_eq_true] at h
            exact absurd h.2 (by simp [singleCore])
        · rintro ⟨c, hc, hlow⟩
          injection hc with hc1
          subst hc1
          rw [pyMatchEnd, Bool.or_eq_true]
          exact Or.inl hlow
    · rw [if_neg hlen, if_neg hlen, pyMatchEnd, Bool.or_eq_true, Bool.and_eq_true,
        multiCore_iff, multiCore_iff, decide_eq_true_eq]
  · intro raw c hh hd
    rw [isDigitC, decide_eq_true_eq] at hd
    cases raw with
    | nil => simp at hh
    | cons c' t =>
      simp only [List.head?_cons, Option.some.injEq] at hh
      subst hh
      have hlc : lowerA c' = c' := lowerA_eq_self_of_not_upper c' (by omega)
      have hdig : isLowAlpha c' = false := by
        rw [isLowAlpha, decide_eq_false_iff_not]
        rintro ⟨h1, h2⟩
        omega
      have hnnl : c' ≠ '\n' := by
        intro h
        rw [h] at hd
        exact absurd hd (by decide)
      simp only [validateAppNameOk, pyLower, List.map_cons, hlc]
      by_cases hlen : (c' :: t.map lowerA).length = 1
      · rw [if_pos hlen]
        simp only [List.length_cons] at hlen
        have ht : t.map lowerA = [] := by
          cases htm : t.map lowerA with
          | nil => rfl
          | cons y ys => rw [htm] at hlen; simp at hlen
        rw [ht, pyMatchEnd]
        rw [show singleCore [c'] = isLowAlpha c' from rfl, hdig]
        simp [hnnl]
      · rw [if_neg hlen, pyMatchEnd, multiCore_head_false c' _ hdig]
        cases htm : t.map lowerA with
        | nil =>
          rw [htm] at hlen
          simp at hlen
        | cons y ys =>
          rw [show (c' :: y :: ys).dropLast = c' :: (y :: ys).dropLast from rfl,
            multiCore_head_false c' _ hdig]
          simp
  · intro raw hg
    have hga : (pyLower raw).getLast? = some '-' := by
      rw [pyLower, List.getLast?_map, hg]
      rfl
    simp only [validateAppNameOk]
    by_cases hlen : (pyLower raw).length = 1
    · rw [if_pos hlen]
      rcases hp : pyLower raw with _ | ⟨x, t⟩
      · rw [hp] at hlen; simp at hlen
      · rw [hp] at hlen
        simp only [List.length_cons] at hlen
        have ht : t = [] := by
          cases t with
          | nil => rfl
          | cons y ys => simp at hlen
        subst ht
        rw [hp] at hga
        have hx : x = '-' := by simpa using hga
        subst hx
        decide
    · rw [if_neg hlen, pyMatchEnd]
      have hmc : multiCore (pyLower raw) = false := by
        cases hb : multiCore (pyLower raw) with
        | false => rfl
        | true =>
          have := multiCore_getLast (pyLower raw) '-' hb hga
          exact absurd this (by decide)
      rw [hmc, hga]
      simp
  · intro raw h
    simp [validateAppName, h]
  · intro raw h
    simp [validateAppName, h]

/-- Witness instantiating `appName_validation_amended` at concrete names:
`My-App` (uppercase, accepted after lowercasing), `9a` (digit start,
rejected), `ab-` (trailing hyphen, rejected), `x_1` (accepted). -/
theorem appName_validation_amended_witness :
    ((∀ c ∈ strL "My-App", c.toNat < 128) ∧
      (strL "9a").head? = some '9' ∧ isDigitC '9' = true ∧
      (strL "ab-").getLast? = some '-' ∧
      validateAppNameOk (strL "ab-") = false ∧
      validateAppNameOk (strL "x_1") = true) ∧
    (validateAppNameOk (strL "My-App") = true ↔
      (if (pyLower (strL "My-App")).length = 1 then
         ∃ c, pyLower (strL "My-App") = [c] ∧ isLowAlpha c = true
       else GrammarMultiP (pyLower (strL "My-App")) ∨
         ((pyLower (strL "My-App")).getLast? = some '\n' ∧
           GrammarMultiP (pyLower (strL "My-App")).dropLast))) ∧
    validateAppNameOk (strL "9a") = false ∧
    validateAppNameOk (strL "ab-") = false ∧
    validateAppName (strL "ab-") = .error (appNameErrorMsg (pyLower (strL "ab-"))) ∧
    validateAppName (strL "x_1") = .ok (pyLower (strL "x_1")) :=
  ⟨⟨by decide, by decide, by decide, by decide, by decide, by decide⟩,
   appName_validation_amended.1 (strL "My-App") (by decide),
   appName_validation_amended.2.2.1 (strL "9a") '9' (by decide) (by decide),
   appName_validation_amended.2.2.2.1 (strL "ab-") (by decide),
   appName_validation_amended.2.2.2.2.1 (strL "ab-") (by decide),
   appName_validation_amended.2.2.2.2.2 (strL "x_1") (by decide)⟩

/-! ## C6 — idempotency decision -/

/-- Claim C6: `needs_deployment` returns true immediately when `force` is
set, without consulting the filesystem (the verdict is the same under
every filesystem); otherwise it returns true exactly when some planned
destination is missing, not a regular file, unreadable, or has content
whose SHA-256 checksum differs from the new content's.  The last two
conjuncts exhibit the claim's examples of byte-level sensitivity: a
trailing newline and a CRLF/LF difference each change the checksum. -/
theorem needs_deployment_spec :
    (∀ (fs fs' : String → FileState) (plan : List (String × String)),
      needsDeployment true fs plan = true ∧
      needsDeployment true fs plan = needsDeployment true fs' plan) ∧
    (∀ (fs : String → FileState) (plan : List (String × String)),
      (needsDeployment false fs plan = true ↔
        ∃ p c, (p, c) ∈ plan ∧ FileChangedP fs p c)) ∧
    calculateChecksum "abc" ≠ calculateChecksum "abc\n" ∧
    calculateChecksum "a\r\nb" ≠ calculateChecksum "a\nb" := by
  refine ⟨fun fs fs' plan => ⟨rfl, rfl⟩, ?_, by decide, by decide⟩
  intro fs plan
  rw [needsDeployment, if_neg (by simp), List.any_eq_true]
  constructor
  · rintro ⟨⟨p, c⟩, hmem, hch⟩
    refine ⟨p, c, hmem, ?_⟩
    rcases hfp : fs p with _ | _ | _ | e
    · exact Or.inl hfp
    · exact Or.inr (Or.inl hfp)
    · exact Or.inr (Or.inr (Or.inl hfp))
    · refine Or.inr (Or.inr (Or.inr ⟨e, hfp, ?_⟩))
      intro he
      rw [fileChanged, hfp] at hch
      simp [he] at hch
  · rintro ⟨p, c, hmem, hch⟩
    refine ⟨(p, c), hmem, ?_⟩
    rw [fileChanged]
    rcases hch with h | h | h | ⟨e, he, hne⟩
    · rw [h]
    · rw [h]
    · rw [h]
    · rw [he]
      simp [hne]

/-- A filesystem with a single readable destination, for the C6 witness. -/
def fsReadable : String → FileState :=
  fun p => if p = "/etc/containers/systemd/shop--main.container" then
    .readable "[Container]" else .absent

/-- Witness instantiating `needs_deployment_spec`: `force` short-circuits
on a concrete filesystem, and an absent destination makes the non-forced
verdict true. -/
theorem needs_deployment_spec_witness :
    (needsDeployment true fsReadable [] = true ∧
      needsDeployment true fsReadable [] = needsDeployment true (fun _ => .absent) []) ∧
    needsDeployment false fsReadable [("/srv/shop/init/main/setup.sh", "echo")] = true :=
  ⟨needs_deployment_spec.1 fsReadable (fun _ => .absent) [],
   (needs_deployment_spec.2.1 fsReadable [("/srv/shop/init/main/setup.sh", "echo")]).mpr
     ⟨"/srv/shop/init/main/setup.sh", "echo", by simp, Or.inl (by rfl)⟩⟩

/-! ## C9 — init.d/config.d structural validation -/

theorem checkSubdirEntry_ok_iff (dn : Chars) (quad : List Chars) (entry : Chars) :
    checkSubdirEntry dn quad entry = .ok () ↔
      VALID_SUBDIR_SUFFIXES.contains (pathSuffix entry) = false ∧
      (matchingQuadlets quad entry).length = 1 := by
  rw [checkSubdirEntry]
  by_cases h1 : VALID_SUBDIR_SUFFIXES.contains (pathSuffix entry) = true
  · rw [if_pos h1]
    constructor
    · intro h; exact absurd h (by simp)
    · rintro ⟨hfalse, -⟩
      rw [h1] at hfalse
      exact absurd hfalse (by simp)
  · rw [if_neg h1]
    rw [Bool.not_eq_true] at h1
    by_cases h2 : matchingQuadlets quad entry = []
    · rw [if_pos h2]
      simp [h1, h2]
    · rw [if_neg h2]
      have hpos : 0 < (matchingQuadlets quad entry).length :=
        List.length_pos.mpr h2
      by_cases h3 : 1 < (matchingQuadlets quad entry).length
      · rw [if_pos h3]
        constructor
        · intro h; exact absurd h (by simp)
        · rintro ⟨-, hl⟩; omega
      · rw [if_neg h3]
        constructor
        · intro _; exact ⟨h1, by omega⟩
        · intro _; rfl

theorem checkSubdirEntries_ok_iff (dn : Chars) (quad : List Chars)
    (es : List (Chars × Bool)) :
    checkSubdirEntries dn quad es = .ok () ↔ GoodEntries quad es := by
  induction es with
  | nil =>
    constructor
    · intro _ e d hmem _
      exact absurd hmem (by simp)
    · intro _; rfl
  | cons pe rest ih =>
    rcases pe with ⟨e, isDir⟩
    rw [checkSubdirEntries]
    cases isDir with
    | false =>
      rw [if_neg (by simp), ih]
      constructor
      · intro h e' d' hmem hd'
        rcases List.mem_cons.mp hmem with heq | hmem'
        · injection heq with he' hd''
          rw [hd'] at hd''
          exact absurd hd''.symm (by simp)
        · exact h e' d' hmem' hd'
      · intro h e' d' hmem hd'
        exact h e' d' (List.mem_cons_of_mem _ hmem) hd'
    | true =>
      rw [if_pos rfl]
      cases hck : checkSubdirEntry dn quad e with
      | error err =>
        constructor
        · intro h; exact absurd h (by simp)
        · intro h
          have hgood := h e true (List.mem_cons_self _ _) rfl
          have := (checkSubdirEntry_ok_iff dn quad e).mpr hgood
          rw [hck] at this
          exact absurd this (by simp)
      | ok u =>
        cases u
        rw [ih]
        constructor
        · intro h e' d' hmem hd'
          rcases List.mem_cons.mp hmem with heq | hmem'
          · injection heq with he' hd''
            subst he'
            exact (checkSubdirEntry_ok_iff dn quad e').mp hck
          · exact h e' d' hmem' hd'
        · intro h e' d' hmem hd'
          exact h e' d' (List.mem_cons_of_mem _ hmem) hd'

theorem optCheck_ok_iff (dn : Chars) (quad : List Chars)
    (o : Option (List (Chars × Bool))) :
    optCheck dn quad o = .ok () ↔ ∀ es, o = some es → GoodEntries quad es := by
  cases o with
  | none =>
    constructor
    · intro _ es hes; exact absurd hes (by simp)
    · intro _; rfl
  | some es =>
    rw [show optCheck dn quad (some es) = checkSubdirEntries dn quad es from rfl,
      checkSubdirEntries_ok_iff]
    constructor
    · intro h es' hes'
      injection hes' with h1
      rw [← h1]; exact h
    · intro h; exact h es rfl

theorem validateStructure_ok_iff (t : SrcTree) :
    validateStructure t = .ok () ↔
      (∀ es, t.initEntries = some es → GoodEntries t.quadletEntries es) ∧
      (∀ es, t.configEntries = some es → GoodEntries t.quadletEntries es) := by
  rw [validateStructure]
  cases hck : optCheck (strL "init.d") t.quadletEntries t.initEntries with
  | error err =>
    constructor
    · intro h; exact absurd h (fun hh => Except.noConfusion hh)
    · intro h
      have := (optCheck_ok_iff (strL "init.d") t.quadletEntries t.initEntries).mpr h.1
      rw [hck] at this
      exact absurd this (by simp)
  | ok u =>
    cases u
    constructor
    · intro h
      exact ⟨(optCheck_ok_iff _ _ _).mp hck, (optCheck_ok_iff _ _ _).mp h⟩
    · intro h
      exact (optCheck_ok_iff _ _ _).mpr h.2

/-- Claim C9: structural validation succeeds exactly when every `init.d`/
`config.d` subdirectory entry is unsuffixed and matches exactly one
`quadlets/` entry with its stem and a `.container`/`.pod` extension; a
suffixed subdirectory name is rejected; zero matches and two-or-more
matches are both rejected, the ambiguous case reporting all (sorted)
matches found. -/
theorem structure_validation_spec :
    (∀ t : SrcTree, validateStructure t = .ok () ↔
      (∀ es, t.initEntries = some es → GoodEntries t.quadletEntries es) ∧
      (∀ es, t.configEntries = some es → GoodEntries t.quadletEntries es))
    ∧ (∀ dn quad entry, VALID_SUBDIR_SUFFIXES.contains (pathSuffix entry) = true →
        checkSubdirEntry dn quad entry = .error (.suffixedDir dn entry))
    ∧ (∀ dn quad entry, VALID_SUBDIR_SUFFIXES.contains (pathSuffix entry) = false →
        matchingQuadlets quad entry = [] →
        checkSubdirEntry dn quad entry = .error (.noMatch dn entry))
    ∧ (∀ dn quad entry, VALID_SUBDIR_SUFFIXES.contains (pathSuffix entry) = false →
        2 ≤ (matchingQuadlets quad entry).length →
        checkSubdirEntry dn quad entry =
          .error (.ambiguous dn entry (sortC (matchingQuadlets quad entry)))) := by
  refine ⟨validateStructure_ok_iff, ?_, ?_, ?_⟩
  · intro dn quad entry h
    rw [checkSubdirEntry, if_pos h]
  · intro dn quad entry h1 h2
    rw [checkSubdirEntry, if_neg (by rw [h1]; exact Bool.false_ne_true), if_pos h2]
  · intro dn quad entry h1 h2
    rw [checkSubdirEntry, if_neg (by rw [h1]; exact Bool.false_ne_true),
      if_neg (by intro h; rw [h] at h2; simp at h2), if_pos (by omega)]

/-- Witness instantiating `structure_validation_spec` at concrete trees:
a well-formed tree (`quadlets/{main.container,db.pod}`, `init.d/main/`)
is accepted; `init.d/main.container/` is rejected as suffixed;
`init.d/ghost/` has no match; `init.d/db/` is ambiguous when both
`db.container` and `db.pod` exist. -/
theorem structure_validation_spec_witness :
    validateStructure
      ⟨[strL "db.pod", strL "main.container"], some [(strL "main", true)], none⟩ =
        .ok () ∧
    checkSubdirEntry (strL "init.d") [strL "main.container"] (strL "main.container") =
      .error (.suffixedDir (strL "init.d") (strL "main.container")) ∧
    checkSubdirEntry (strL "init.d") [strL "main.container"] (strL "ghost") =
      .error (.noMatch (strL "init.d") (strL "ghost")) ∧
    checkSubdirEntry (strL "config.d") [strL "db.pod", strL "db.container"] (strL "db") =
      .error (.ambiguous (strL "config.d") (strL "db")
        (sortC (matchingQuadlets [strL "db.pod", strL "db.container"] (strL "db")))) :=
  ⟨(structure_validation_spec.1 _).mpr (by
      constructor
      · intro es hes
        injection hes with hes1
        rw [← hes1]
        intro e d hmem hd
        have : (e, d) = (strL "main", true) := by simpa using hmem
        injection this with he hd'
        subst he
        exact ⟨by decide, by decide⟩
      · intro es hes
        exact absurd hes (by simp)),
   structure_validation_spec.2.1 (strL "init.d") [strL "main.container"]
     (strL "main.container") (by decide),
   structure_validation_spec.2.2.1 (strL "init.d") [strL "main.container"]
     (strL "ghost") (by decide) (by decide),
   structure_validation_spec.2.2.2 (strL "config.d") [strL "db.pod", strL "db.container"]
     (strL "db") (by decide) (by decide)⟩

/-! ## C10 — dependency filtering for the batched restart -/

/-- Claim C10: every service name in the dependency list produced for the
batched restart starts with `<appName>--` and none equals the main service
name `<appName>--main.service`, and the batched command issued is exactly
one `restart` carrying that list — so the main service never appears in
the dependency restart command, whatever the listing output. -/
theorem deps_filtered_spec :
    (∀ app o ds, getAppDeps app (mainService app) o = .ok ds →
      ∀ d ∈ ds, startsC (strL (app ++ "--")) (strL d) = true ∧ d ≠ mainService app)
    ∧ (∀ (env : Env) timeoutS app ds,
        getAppDeps app (mainService app) env.depsQ = .ok ds → ds ≠ [] →
        (restartDependencies env timeoutS app (mainService app)).1 =
          [.depsQuery, .ctl ("restart" :: ds)]) := by
  constructor
  · intro app o ds hds d hd
    cases o with
    | timedOut =>
      rw [getAppDeps] at hds
      injection hds with h1
      rw [← h1] at hd
      exact absurd hd (by simp)
    | noExe => exact absurd hds (by simp [getAppDeps])
    | otherErr => exact absurd hds (by simp [getAppDeps])
    | ran rc out err =>
      rw [getAppDeps] at hds
      by_cases hrc : rc ≠ 0
      · rw [if_pos hrc] at hds
        injection hds with h1
        rw [← h1] at hd
        exact absurd hd (by simp)
      · rw [if_neg hrc] at hds
        injection hds with h1
        rw [← h1] at hd
        rw [depsFilter] at hd
        rcases List.mem_map.mp hd with ⟨l, hl, hdl⟩
        have hp := (List.mem_filter.mp hl).2
        rw [decide_eq_true_eq] at hp
        have hld : l = strL d := by rw [← hdl]; rfl
        constructor
        · have : strL (app ++ "--") = strL app ++ strL "--" := String.data_append app "--"
          rw [this, ← hld]
          exact hp.1
        · intro hdm
          apply hp.2
          rw [hld, hdm]
  · intro env timeoutS app ds hds hne
    rw [restartDependencies, hds]
    simp [hne]

/-- Witness instantiating `deps_filtered_spec` on `envActiveDeps`, whose
listing output contains the main service line, an app-prefixed dependency
and a foreign service: only `shop--db.service` survives the filter and the
batched command is `systemctl restart shop--db.service`. -/
theorem deps_filtered_spec_witness :
    (getAppDeps "shop" (mainService "shop") envActiveDeps.depsQ =
        .ok ["shop--db.service"] ∧
      "shop--db.service" ∈ ["shop--db.service"]) ∧
    (startsC (strL ("shop" ++ "--")) (strL "shop--db.service") = true ∧
      "shop--db.service" ≠ mainService "shop") ∧
    (restartDependencies envActiveDeps 120 "shop" (mainService "shop")).1 =
      [.depsQuery, .ctl ("restart" :: ["shop--db.service"])] :=
  ⟨⟨rfl, by simp⟩,
   deps_filtered_spec.1 "shop" envActiveDeps.depsQ ["shop--db.service"] rfl
     "shop--db.service" (by simp),
   deps_filtered_spec.2 envActiveDeps 120 "shop" ["shop--db.service"] rfl (by simp)⟩

/-! ## C4 — error handling of the service-manager collaborators -/

/-- Claim C4 (counterexample): a missing `systemctl` executable is not
always fatal.  With `envNoExe`, whose `is-active` query raises
`FileNotFoundError`, a `state=started` run with no file changes swallows
the error inside `_is_service_active` (which reports the service inactive)
and completes successfully, issuing `start` — it does not abort. -/
theorem missing_systemctl_not_fatal_cex :
    runService envNoExe 120 "shop" .started false =
      ([.activeQuery, .activeQuery, .ctl ["start", mainService "shop"]],
       .ok ⟨true⟩) ∧
    isServiceActive ProcOutcome.noExe = false :=
  ⟨rfl, rfl⟩

/-- Claim C4 (amended): a missing `systemctl` executable is fatal in the
dependency listing and in the lifecycle-command runner, but the
`is-active` query swallows every failure — missing executable, timeout,
other exceptions and non-zero exits — and reports the service inactive;
dependency listing degrades to the empty list on timeout and also on
non-zero exit. -/
theorem error_handling_amended :
    (∀ app svc, getAppDeps app svc .noExe =
      .error (failMsg "systemctl command not found"))
    ∧ (∀ app svc, getAppDeps app svc .timedOut = .ok [])
    ∧ (∀ app svc rc out err, rc ≠ 0 → getAppDeps app svc (.ran rc out err) = .ok [])
    ∧ (∀ timeoutS args, sysCtl timeoutS args .noExe =
        .error (failMsg "Failed to execute systemctl"))
    ∧ isServiceActive .noExe = false
    ∧ isServiceActive .timedOut = false
    ∧ isServiceActive .otherErr = false
    ∧ (∀ rc out err, rc ≠ 0 → isServiceActive (.ran rc out err) = false) := by
  refine ⟨fun _ _ => rfl, fun _ _ => rfl, ?_, fun _ _ => rfl, rfl, rfl, rfl, ?_⟩
  · intro app svc rc out err h
    rw [getAppDeps, if_pos h]
  · intro rc out err h
    rw [isServiceActive]
    simp [h]

/-- Witness instantiating `error_handling_amended` at exit code 3. -/
theorem error_handling_amended_witness :
    ((3 : Nat) ≠ 0) ∧
    getAppDeps "shop" "shop--main.service" (.ran 3 "" "") = .ok [] ∧
    isServiceActive (.ran 3 "inactive" "") = false :=
  ⟨by decide,
   error_handling_amended.2.2.1 "shop" "shop--main.service" 3 "" "" (by decide),
   error_handling_amended.2.2.2.2.2.2.2 3 "inactive" "" (by decide)⟩

/-! ## C5 — dry-run validation gates daemon-reload -/

theorem reload_not_in_restartDeps (env : Env) (timeoutS : Nat) (app svc : String) :
    Ev.ctl ["daemon-reload"] ∉ (restartDependencies env timeoutS app svc).1 := by
  rw [restartDependencies]
  have hne : ("restart" : String) ≠ "daemon-reload" := by decide
  cases getAppDeps app svc env.depsQ with
  | error f => simp
  | ok deps =>
    by_cases hd : deps = []
    · simp [hd]
    · simp [hd, hne]

theorem reload_not_in_tail (env : Env) (timeoutS : Nat) (app : String)
    (changed : Bool) (st : AppState) (sc : Bool) :
    Ev.ctl ["daemon-reload"] ∉ (manageSystemdTail env timeoutS app changed st sc).1 := by
  have hnr : ("restart" : String) ≠ "daemon-reload" := by decide
  have hns : ("start" : String) ≠ "daemon-reload" := by decide
  have hdeps := reload_not_in_restartDeps env timeoutS app (mainService app)
  simp only [manageSystemdTail]
  cases st with
  | installed => simp
  | restarted =>
    simp only []
    rcases hrd : restartDependencies env timeoutS app (mainService app) with ⟨ev2, r⟩
    rw [hrd] at hdeps
    cases r with
    | error f => simpa using hdeps
    | ok u =>
      cases u
      cases sysCtl timeoutS ["restart", mainService app]
          (env.lifecycle ["restart", mainService app]) with
      | error f => simp [hnr]; simpa using hdeps
      | ok u' => cases u'; simp [hnr]; simpa using hdeps
  | started =>
    by_cases hch : changed
    · simp only [hch, if_true]
      by_cases hact : isServiceActive env.activeQ
      · simp only [hact, if_true]
        rcases hrd : restartDependencies env timeoutS app (mainService app) with ⟨ev2, r⟩
        rw [hrd] at hdeps
        cases r with
        | error f => simpa using hdeps
        | ok u =>
          cases u
          cases sysCtl timeoutS ["restart", mainService app]
              (env.lifecycle ["restart", mainService app]) with
          | error f => simp [hnr]; simpa using hdeps
          | ok u' => cases u'; simp [hnr]; simpa using hdeps
      · simp only [hact, if_false, Bool.false_eq_true]
        cases sysCtl timeoutS ["start", mainService app]
            (env.lifecycle ["start", mainService app]) with
        | error f => simp [hact, hns]
        | ok u => cases u; simp [hact, hns]
    · simp only [hch, if_false]
      by_cases hact : isServiceActive env.activeQ
      · simp [hch, hact]
      · cases sysCtl timeoutS ["start", mainService app]
            (env.lifecycle ["start", mainService app]) with
        | error f => simp [hch, hact, hns]
        | ok u => cases u; simp [hch, hact, hns]

/-- Claim C5: when files changed and the generator dry run exits non-zero,
`_manage_systemd` fails immediately with the tool's stripped stderr as the
message and the verbatim stderr in the failure's `stderr` field, having
issued no `systemctl` command at all — in particular no `daemon-reload`;
and whenever `daemon-reload` appears in the issued events, the run had
changed files and the dry-run validation succeeded first. -/
theorem dryrun_gates_reload :
    (∀ (env : Env) timeoutS app st rc out err,
      env.dryrun = .ran rc out err → rc ≠ 0 →
      manageSystemd env timeoutS app true st =
        ([.dryrunRun],
         .error ⟨pyStripS err, some (GENERATOR ++ " -dryrun -v"),
                 some rc, some out, some err⟩))
    ∧ (∀ (env : Env) timeoutS app changed st,
        Ev.ctl ["daemon-reload"] ∈ (manageSystemd env timeoutS app changed st).1 →
        changed = true ∧ dryrunCheck env.dryrun = .ok ()) := by
  constructor
  · intro env t app st rc out err hdr hrc
    have h1 : dryrunCheck env.dryrun =
        .error ⟨pyStripS err, some (GENERATOR ++ " -dryrun -v"),
                some rc, some out, some err⟩ := by
      rw [hdr, dryrunCheck, if_pos hrc]
    rw [manageSystemd, if_pos rfl, h1]
  · intro env t app changed st hmem
    by_cases hch : changed = true
    · refine ⟨hch, ?_⟩
      rw [manageSystemd, if_pos hch] at hmem
      cases hd : dryrunCheck env.dryrun with
      | error f =>
        rw [hd] at hmem
        simp at hmem
      | ok u => cases u; rfl
    · exfalso
      rw [manageSystemd, if_neg hch] at hmem
      exact reload_not_in_tail env t app changed st false hmem

/-- A concrete environment whose generator dry run fails with exit code 1.
Used by the C5 witness. -/
def envDryFail : Env :=
  ⟨.ran 0 "active" "", .ran 1 "" "quadlet parse error\n", .ran 0 "" "",
   fun _ => .ran 0 "" ""⟩

/-- Witness instantiating `dryrun_gates_reload`: under `envDryFail` with
changed files the run fails with the verbatim stderr and only the dry-run
event in the trace; under `envActiveDeps` with changed files the reload
that does occur is preceded by a successful dry run. -/
theorem dryrun_gates_reload_witness :
    (envDryFail.dryrun = .ran 1 "" "quadlet parse error\n" ∧ (1 : Nat) ≠ 0 ∧
      Ev.ctl ["daemon-reload"] ∈
        (manageSystemd envActiveDeps 120 "shop" true .installed).1) ∧
    manageSystemd envDryFail 120 "shop" true .started =
      ([.dryrunRun],
       .error ⟨pyStripS "quadlet parse error\n", some (GENERATOR ++ " -dryrun -v"),
               some 1, some "", some "quadlet parse error\n"⟩) ∧
    (true = true ∧ dryrunCheck envActiveDeps.dryrun = .ok ()) :=
  ⟨⟨rfl, by decide, by decide⟩,
   dryrun_gates_reload.1 envDryFail 120 "shop" .started 1 "" "quadlet parse error\n"
     rfl (by decide),
   dryrun_gates_reload.2 envActiveDeps 120 "shop" true .installed (by decide)⟩

/-! ## C7 — state-machine scenarios -/

/-- Claim C7: the three claimed state transitions.  (1) `state=started`,
service inactive, no file changes: the run issues only the two `is-active`
queries and one `start` — no daemon-reload, no restart — and reports
`changed=true`.  (2) `state=started`, service active, files changed: after
the dry run and `daemon-reload`, the app-prefixed dependencies are
restarted in one batch before the main service is restarted, and the run
reports `changed=true`.  (3) `state=installed`, no file changes: the run
reports `changed=false` and issues no service-manager command at all
(empty event trace). -/
theorem state_machine_scenarios :
    (∀ (env : Env) timeoutS app,
      isServiceActive env.activeQ = false →
      sysCtl timeoutS ["start", mainService app]
          (env.lifecycle ["start", mainService app]) = .ok () →
      runService env timeoutS app .started false =
        ([.activeQuery, .activeQuery, .ctl ["start", mainService app]], .ok ⟨true⟩))
    ∧ (∀ (env : Env) timeoutS app ds,
        isServiceActive env.activeQ = true →
        dryrunCheck env.dryrun = .ok () →
        sysCtl timeoutS ["daemon-reload"] (env.lifecycle ["daemon-reload"]) = .ok () →
        getAppDeps app (mainService app) env.depsQ = .ok ds →
        ds ≠ [] →
        sysCtl timeoutS ("restart" :: ds) (env.lifecycle ("restart" :: ds)) = .ok () →
        sysCtl timeoutS ["restart", mainService app]
            (env.lifecycle ["restart", mainService app]) = .ok () →
        runService env timeoutS app .started true =
          ([.activeQuery, .dryrunRun, .ctl ["daemon-reload"], .activeQuery, .depsQuery,
            .ctl ("restart" :: ds), .ctl ["restart", mainService app]], .ok ⟨true⟩))
    ∧ (∀ (env : Env) timeoutS app,
        runService env timeoutS app .installed false = ([], .ok ⟨false⟩)) := by
  refine ⟨?_, ?_, ?_⟩
  · intro env t app hact hstart
    simp only [runService, needsServiceMgmt, manageSystemd, manageSystemdTail,
      hact, hstart]
    simp
  · intro env t app ds hact hdry hreload hdeps hne hrdeps hrmain
    simp only [runService, needsServiceMgmt, manageSystemd, manageSystemdTail,
      restartDependencies, hact, hdry, hreload, hdeps, hne, hrdeps, hrmain]
    simp [hne]
  · intro env t app
    simp [runService, needsServiceMgmt]

/-- Witness instantiating `state_machine_scenarios`: scenario 1 on
`envInactive`, scenario 2 on `envActiveDeps` with the single dependency
`shop--db.service`, scenario 3 on `envInactive`. -/
theorem state_machine_scenarios_witness :
    (isServiceActive envInactive.activeQ = false ∧
      isServiceActive envActiveDeps.activeQ = true ∧
      getAppDeps "shop" (mainService "shop") envActiveDeps.depsQ =
        .ok ["shop--db.service"]) ∧
    runService envInactive 120 "shop" .started false =
      ([.activeQuery, .activeQuery, .ctl ["start", mainService "shop"]], .ok ⟨true⟩) ∧
    runService envActiveDeps 120 "shop" .started true =
      ([.activeQuery, .dryrunRun, .ctl ["daemon-reload"], .activeQuery, .depsQuery,
        .ctl ("restart" :: ["shop--db.service"]),
        .ctl ["restart", mainService "shop"]], .ok ⟨true⟩) ∧
    runService envInactive 120 "shop" .installed false = ([], .ok ⟨false⟩) :=
  ⟨⟨rfl, rfl, rfl⟩,
   state_machine_scenarios.1 envInactive 120 "shop" rfl rfl,
   state_machine_scenarios.2.1 envActiveDeps 120 "shop" ["shop--db.service"]
     rfl rfl rfl rfl (by decide) rfl rfl,
   state_machine_scenarios.2.2 envInactive 120 "shop"⟩

/-- Witness instantiating `ruleTwo_spec` at the claim's example input. -/
theorem ruleTwo_spec_witness :
    ((strL "").all pySpace = true ∧
      (∀ c ∈ strL "init.d/secrets", c ≠ ':') ∧
      (∀ c, (strL ":/run/secrets").head? = some c → c = ':')) ∧
    ruleTwo (strL "shop") (strL "main")
        (strL "" ++ strL "Volume=" ++ strL "init.d/secrets" ++ strL ":/run/secrets") =
      (if endsC (strL ".volume") (strL "init.d/secrets") = true then
         strL "" ++ strL "Volume=" ++ strL "init.d/secrets" ++ strL ":/run/secrets"
       else if (strL "init.d/secrets").head? = some '/' then
         strL "" ++ strL "Volume=" ++ strL "init.d/secrets" ++ strL ":/run/secrets"
       else if startsC (strL "init.d") (strL "init.d/secrets") = true then
         strL "" ++ strL "Volume=" ++
           redirTarget (strL "shop") (strL "main") (strL "init")
             (stripLeadSlash ((strL "init.d/secrets").drop 6)) ++ strL ":/run/secrets"
       else if startsC (strL "config.d") (strL "init.d/secrets") = true then
         strL "" ++ strL "Volume=" ++
           redirTarget (strL "shop") (strL "main") (strL "config")
             (stripLeadSlash ((strL "init.d/secrets").drop 8)) ++ strL ":/run/secrets"
       else strL "" ++ strL "Volume=" ++ strL "init.d/secrets" ++ strL ":/run/secrets") :=
  ⟨⟨by decide, by decide, by decide⟩,
   ruleTwo_spec.1 (strL "shop") (strL "main") (strL "") (strL "init.d/secrets")
     (strL ":/run/secrets") (by decide) (by decide) (by decide)⟩

end Quadlet
